import Mathlib

/-!
# Verification of the gstreamer_sdl2_rust playback core

Shallow embedding of `src/main.rs` (a GStreamer + SDL2 media player).

Modelling conventions:
* Machine integers `u32` are modelled as `Nat`; every value produced by the
  program stays far below `2^32`, except where an `f32 -> u32` saturating
  cast can produce `u32::MAX`, which is modelled explicitly (`u32Max`).
* Finite `f32` arithmetic is modelled by exact rationals `ℚ`.  The special
  values the program can actually produce — `+inf` from dividing a positive
  number by `0.0`, `NaN` from `0.0 / 0.0` — are modelled explicitly by the
  `F32Val` type, together with Rust's saturating `as u32` cast on the result
  of `.ceil()` (`NaN` casts to `0`, `+inf` to `u32::MAX`).
* `f64` volume values are modelled by `ℚ` (the deltas `0.1` and bounds `0.0`,
  `1.0` are modelled by the exact rationals they denote).
* `sdl2::rect::Rect` is modelled as the raw `(x, y, width, height)` quadruple
  handed to `Rect::new` (structure `DisplayRect`).
* The event loop of `main` is modelled as a step function over an explicit
  state (`LoopState`) consuming per-tick external inputs (`TickInput`:
  queued bus messages, queued SDL events each with the position the pipeline
  would report at that moment, and the outcome of the 40 ms frame pull),
  and emitting an ordered trace of observable actions (`Action`).
  The wall-clock FPS-overlay block (lines 502–524 of `main.rs`) reads real
  time and only regenerates the overlay text; it is not modelled.
-/

namespace GstSdl2

/-- `const WINDOW_WIDTH: u32 = 800;` -/
def WINDOW_WIDTH : Nat := 800

/-- `const WINDOW_HEIGHT: u32 = 600;` -/
def WINDOW_HEIGHT : Nat := 600

/-- `const WINDOW_ASPECT_RATIO: f32 = WINDOW_WIDTH as f32 / WINDOW_HEIGHT as f32;`
(finite `f32` value modelled as an exact rational). -/
def WINDOW_ASPECT_RATIO : ℚ := (WINDOW_WIDTH : ℚ) / (WINDOW_HEIGHT : ℚ)

/-- `pub enum ScaleMode { Fit, Fill }` -/
inductive ScaleMode
  | Fit
  | Fill
deriving DecidableEq

/-- `pub enum PlaybackSpeed { Half, Normal, Fast, Double }` -/
inductive PlaybackSpeed
  | Half
  | Normal
  | Fast
  | Double
deriving DecidableEq

/-- `PlaybackSpeed::get_rate` (an `f64`, exactly representable; modelled in `ℚ`). -/
def PlaybackSpeed.get_rate : PlaybackSpeed → ℚ
  | .Half => 1 / 2
  | .Normal => 1
  | .Fast => 3 / 2
  | .Double => 2

/-- `PlaybackSpeed::next` — the cyclic successor. -/
def PlaybackSpeed.next : PlaybackSpeed → PlaybackSpeed
  | .Half => .Normal
  | .Normal => .Fast
  | .Fast => .Double
  | .Double => .Half

/-- `u32::MAX`, the saturation bound of Rust's `as u32` cast from `f32`. -/
def u32Max : Nat := 4294967295

/-- Model of the `f32` values arising in `calculate_display_rect`: a finite
value (exact rational), `+inf` (positive / 0.0) or `NaN` (0.0 / 0.0). -/
inductive F32Val
  | nan
  | inf
  | fin (q : ℚ)
deriving DecidableEq

/-- `video_width as f32 / video_height as f32`, with IEEE division by zero:
`0.0/0.0 = NaN`, `positive/0.0 = +inf`, otherwise exact. -/
def aspectRatio (w h : Nat) : F32Val :=
  if h = 0 then (if w = 0 then .nan else .inf) else .fin ((w : ℚ) / (h : ℚ))

/-- IEEE comparison `a > c` for a finite positive constant `c`:
false on `NaN`, true on `+inf`. -/
def F32Val.gtQ : F32Val → ℚ → Bool
  | .nan, _ => false
  | .inf, _ => true
  | .fin q, c => decide (c < q)

/-- `(c * a).ceil() as u32` for a finite positive constant `c`:
`c * NaN = NaN` casts to 0, `c * inf = inf` casts saturating to `u32::MAX`,
finite values take an exact ceiling then saturate at `u32::MAX`
(`Nat.ceil` also matches the cast's clamping of negatives to 0). -/
def mulCeilU32 (c : ℚ) : F32Val → Nat
  | .nan => 0
  | .inf => u32Max
  | .fin q => min ⌈c * q⌉₊ u32Max

/-- `(c / a).ceil() as u32` for a finite positive constant `c`:
`c / NaN = NaN` casts to 0, `c / inf = 0.0`, `c / 0.0 = +inf` saturates to
`u32::MAX`, other finite values take an exact ceiling then saturate. -/
def divCeilU32 (c : ℚ) : F32Val → Nat
  | .nan => 0
  | .inf => 0
  | .fin q => if q = 0 then u32Max else min ⌈c / q⌉₊ u32Max

/-- The `(x, y, width, height)` quadruple passed to `Rect::new(x as i32,
y as i32, width, height)` at the end of `calculate_display_rect`. -/
structure DisplayRect where
  x : Int
  y : Int
  w : Nat
  h : Nat
deriving DecidableEq

/-- `let safe_div = |a: u32, b: u32| -> u32 { if b == 0 { return 0; } a / b };` -/
def safe_div (a b : Nat) : Nat := if b = 0 then 0 else a / b

/-- `let safe_sub = |a: u32, b: u32| -> u32 { if b > a { return 0; } a - b };` -/
def safe_sub (a b : Nat) : Nat := if b > a then 0 else a - b

/-- `fn calculate_display_rect(video_width: u32, video_height: u32,
scale_mode: ScaleMode) -> Rect` — lines 72–132 of `src/main.rs`. -/
def calculate_display_rect (video_width video_height : Nat)
    (scale_mode : ScaleMode) : DisplayRect :=
  let video_aspect_ratio := aspectRatio video_width video_height
  match scale_mode with
  | .Fit =>
    if video_aspect_ratio.gtQ WINDOW_ASPECT_RATIO then
      let w := WINDOW_WIDTH
      let h0 := divCeilU32 (WINDOW_WIDTH : ℚ) video_aspect_ratio
      let h := if h0 > WINDOW_HEIGHT then WINDOW_HEIGHT else h0
      let y := safe_div (safe_sub WINDOW_HEIGHT h) 2
      ⟨0, (y : Int), w, h⟩
    else
      let h := WINDOW_HEIGHT
      let w0 := mulCeilU32 (WINDOW_HEIGHT : ℚ) video_aspect_ratio
      let w := if w0 > WINDOW_WIDTH then WINDOW_WIDTH else w0
      let x := safe_div (safe_sub WINDOW_WIDTH w) 2
      ⟨(x : Int), 0, w, h⟩
  | .Fill =>
    if video_aspect_ratio.gtQ WINDOW_ASPECT_RATIO then
      let h := WINDOW_HEIGHT
      let w0 := mulCeilU32 (WINDOW_HEIGHT : ℚ) video_aspect_ratio
      let w := if w0 > WINDOW_WIDTH then WINDOW_WIDTH else w0
      let x := safe_div (safe_sub WINDOW_WIDTH w) 2
      ⟨(x : Int), 0, w, h⟩
    else
      let w := WINDOW_WIDTH
      let h0 := divCeilU32 (WINDOW_WIDTH : ℚ) video_aspect_ratio
      let h := if h0 > WINDOW_HEIGHT then WINDOW_HEIGHT else h0
      let y := safe_div (safe_sub WINDOW_HEIGHT h) 2
      ⟨0, (y : Int), w, h⟩

/-- With a nonzero video height the aspect ratio is the finite exact quotient. -/
lemma aspectRatio_of_height_ne_zero (w h : Nat) (hh : h ≠ 0) :
    aspectRatio w h = .fin ((w : ℚ) / (h : ℚ)) := by
  simp [aspectRatio, hh]

/-- The window aspect ratio evaluates to `4/3`. -/
lemma window_aspect_eq : WINDOW_ASPECT_RATIO = 4 / 3 := by
  norm_num [ WINDOW_ASPECT_RATIO, WINDOW_WIDTH, WINDOW_HEIGHT]

/-- The finite-value aspect comparison agrees with the rational comparison. -/
lemma gtQ_fin (q c : ℚ) : (F32Val.fin q).gtQ c = true ↔ c < q := by
  simp [F32Val.gtQ]

/-- Evaluation: `calculate_display_rect(1920, 1080, Fit)` letterboxes to
`(0, 75, 800, 450)`. -/
lemma eval_fit_1920_1080 :
    calculate_display_rect 1920 1080 ScaleMode.Fit = ⟨0, 75, 800, 450⟩ := by
  have ha : aspectRatio 1920 1080 = .fin ((1920 : ℚ) / 1080) :=
    aspectRatio_of_height_ne_zero 1920 1080 (by norm_num)
  have hceil : divCeilU32 (WINDOW_WIDTH : ℚ) (.fin ((1920 : ℚ) / 1080)) = 450 := by
    have h9 : ((1920 : ℚ) / 1080) ≠ 0 := by norm_num
    have : (⌈(WINDOW_WIDTH : ℚ) / ((1920 : ℚ) / 1080)⌉₊ : Nat) = 450 := by
      rw [Nat.ceil_eq_iff (by norm_num)]
      norm_num [WINDOW_WIDTH]
    simp [divCeilU32, h9, this, u32Max]
  simp only [calculate_display_rect, ha, hceil]
  rw [if_pos (by rw [gtQ_fin, window_aspect_eq]; norm_num)]
  norm_num [WINDOW_WIDTH, WINDOW_HEIGHT, safe_div, safe_sub]

/-- Evaluation: `calculate_display_rect(1920, 1080, Fill)` clamps the scaled
width `1067` down to the window width and returns the full window rect. -/
lemma eval_fill_1920_1080 :
    calculate_display_rect 1920 1080 ScaleMode.Fill = ⟨0, 0, 800, 600⟩ := by
  have ha : aspectRatio 1920 1080 = .fin ((1920 : ℚ) / 1080) :=
    aspectRatio_of_height_ne_zero 1920 1080 (by norm_num)
  have hceil : mulCeilU32 (WINDOW_HEIGHT : ℚ) (.fin ((1920 : ℚ) / 1080)) = 1067 := by
    have : (⌈(WINDOW_HEIGHT : ℚ) * ((1920 : ℚ) / 1080)⌉₊ : Nat) = 1067 := by
      rw [Nat.ceil_eq_iff (by norm_num)]
      norm_num [WINDOW_HEIGHT]
    simp [mulCeilU32, this, u32Max]
  simp only [calculate_display_rect, ha, hceil]
  rw [if_pos (by rw [gtQ_fin, window_aspect_eq]; norm_num)]
  norm_num [WINDOW_WIDTH, WINDOW_HEIGHT, safe_div, safe_sub]

/-- Evaluation: a zero-width video with positive height under `Fill` hits the
`800/0.0 = +inf` path, whose ceiling saturates to `u32::MAX` and is then
clamped to the window height: the result is the full window rect. -/
lemma eval_fill_zero_width (vh : Nat) (hh : vh ≠ 0) :
    calculate_display_rect 0 vh ScaleMode.Fill = ⟨0, 0, 800, 600⟩ := by
  have ha : aspectRatio 0 vh = .fin 0 := by
    rw [aspectRatio_of_height_ne_zero 0 vh hh]
    norm_num
  have hceil : divCeilU32 (WINDOW_WIDTH : ℚ) (.fin 0) = u32Max := by
    simp [divCeilU32]
  simp only [calculate_display_rect, ha, hceil]
  rw [if_neg (by rw [gtQ_fin, window_aspect_eq]; norm_num)]
  norm_num [WINDOW_WIDTH, WINDOW_HEIGHT, u32Max, safe_div, safe_sub]

/-- Evaluation: a zero-height video with positive width under `Fill` hits the
`+inf` aspect path: the scaled width saturates to `u32::MAX`, is clamped to
the window width, and the result is the full window rect. -/
lemma eval_fill_zero_height (vw : Nat) (hw : vw ≠ 0) :
    calculate_display_rect vw 0 ScaleMode.Fill = ⟨0, 0, 800, 600⟩ := by
  have ha : aspectRatio vw 0 = .inf := by
    simp [aspectRatio, hw]
  simp only [calculate_display_rect, ha]
  rw [if_pos (by simp [F32Val.gtQ])]
  norm_num [mulCeilU32, WINDOW_WIDTH, WINDOW_HEIGHT, u32Max, safe_div, safe_sub]

/-- Evaluation: a fully-degenerate `0×0` video under `Fill` follows the `NaN`
aspect path and yields a zero-area rect. -/
lemma eval_fill_zero_zero :
    calculate_display_rect 0 0 ScaleMode.Fill = ⟨0, 300, 800, 0⟩ := by
  have ha : aspectRatio 0 0 = .nan := by simp [aspectRatio]
  simp only [calculate_display_rect, ha]
  rw [if_neg (by simp [F32Val.gtQ])]
  norm_num [divCeilU32, WINDOW_WIDTH, WINDOW_HEIGHT, safe_div, safe_sub]

/-- Evaluation: a zero-width video with positive height under `Fit` yields a
zero-width pillarboxed rect. -/
lemma eval_fit_zero_width (vh : Nat) (hh : vh ≠ 0) :
    calculate_display_rect 0 vh ScaleMode.Fit = ⟨400, 0, 0, 600⟩ := by
  have ha : aspectRatio 0 vh = .fin 0 := by
    rw [aspectRatio_of_height_ne_zero 0 vh hh]
    norm_num
  have hceil : mulCeilU32 (WINDOW_HEIGHT : ℚ) (.fin 0) = 0 := by
    simp [mulCeilU32, u32Max]
  simp only [calculate_display_rect, ha, hceil]
  rw [if_neg (by rw [gtQ_fin, window_aspect_eq]; norm_num)]
  norm_num [WINDOW_WIDTH, WINDOW_HEIGHT, safe_div, safe_sub]

/-- Evaluation: a zero-height video with positive width under `Fit` yields a
zero-height letterboxed rect. -/
lemma eval_fit_zero_height (vw : Nat) (hw : vw ≠ 0) :
    calculate_display_rect vw 0 ScaleMode.Fit = ⟨0, 300, 800, 0⟩ := by
  have ha : aspectRatio vw 0 = .inf := by
    simp [aspectRatio, hw]
  simp only [calculate_display_rect, ha]
  rw [if_pos (by simp [F32Val.gtQ])]
  norm_num [divCeilU32, WINDOW_WIDTH, WINDOW_HEIGHT, safe_div, safe_sub]

/-- Evaluation: a fully-degenerate `0×0` video under `Fit` yields a zero-width
rect. -/
lemma eval_fit_zero_zero :
    calculate_display_rect 0 0 ScaleMode.Fit = ⟨400, 0, 0, 600⟩ := by
  have ha : aspectRatio 0 0 = .nan := by simp [aspectRatio]
  simp only [calculate_display_rect, ha]
  rw [if_neg (by simp [F32Val.gtQ])]
  norm_num [mulCeilU32, WINDOW_WIDTH, WINDOW_HEIGHT, safe_div, safe_sub]

/-- `safe_sub` coincides with truncated subtraction on `Nat`. -/
lemma safe_sub_eq (a b : Nat) : safe_sub a b = a - b := by
  unfold safe_sub
  split <;> omega

/-- `safe_div` by the nonzero constant 2 is plain division. -/
lemma safe_div_two (a : Nat) : safe_div a 2 = a / 2 := by
  simp [safe_div]

/-- Centering a dimension `d ≤ bound` keeps the far edge inside the bound. -/
lemma center_fits (bound d : Nat) (hd : d ≤ bound) :
    safe_div (safe_sub bound d) 2 + d ≤ bound := by
  rw [safe_sub_eq, safe_div_two]
  omega

/-- Structure of the `Fit` result for a well-formed video height: either the
wide branch (full window width, clamped height, centered vertically) or the
tall branch (full window height, clamped width, centered horizontally). -/
lemma fit_cases (vw vh : Nat) (hh : vh ≠ 0) :
    (∃ d, d ≤ WINDOW_HEIGHT ∧
      calculate_display_rect vw vh ScaleMode.Fit =
        ⟨0, (safe_div (safe_sub WINDOW_HEIGHT d) 2 : Nat), WINDOW_WIDTH, d⟩) ∨
    (∃ d, d ≤ WINDOW_WIDTH ∧
      calculate_display_rect vw vh ScaleMode.Fit =
        ⟨(safe_div (safe_sub WINDOW_WIDTH d) 2 : Nat), 0, d, WINDOW_HEIGHT⟩) := by
  have ha : aspectRatio vw vh = .fin ((vw : ℚ) / (vh : ℚ)) :=
    aspectRatio_of_height_ne_zero vw vh hh
  simp only [calculate_display_rect, ha]
  by_cases hc : (F32Val.fin ((vw : ℚ) / (vh : ℚ))).gtQ WINDOW_ASPECT_RATIO = true
  · left
    rw [if_pos hc]
    refine ⟨_, ?_, rfl⟩
    split <;> omega
  · right
    rw [if_neg hc]
    refine ⟨_, ?_, rfl⟩
    split <;> omega

/-- C2: for positive video dimensions, `Fit` yields a rect contained in the
window with non-negative offsets; the non-limiting dimension never exceeds
its window bound (ceiling rounding is clamped), at least one axis equals the
window's bound, and the 1920×1080 scenario evaluates to `(0, 75, 800, 450)`. -/
theorem C2_fit_contained_one_axis_tight (vw vh : Nat)
    (_hw : 0 < vw) (hh : 0 < vh) :
    0 ≤ (calculate_display_rect vw vh ScaleMode.Fit).x ∧
    0 ≤ (calculate_display_rect vw vh ScaleMode.Fit).y ∧
    (calculate_display_rect vw vh ScaleMode.Fit).x +
      ((calculate_display_rect vw vh ScaleMode.Fit).w : Int) ≤ (WINDOW_WIDTH : Int) ∧
    (calculate_display_rect vw vh ScaleMode.Fit).y +
      ((calculate_display_rect vw vh ScaleMode.Fit).h : Int) ≤ (WINDOW_HEIGHT : Int) ∧
    ((calculate_display_rect vw vh ScaleMode.Fit).w = WINDOW_WIDTH ∨
      (calculate_display_rect vw vh ScaleMode.Fit).h = WINDOW_HEIGHT) ∧
    calculate_display_rect 1920 1080 ScaleMode.Fit = ⟨0, 75, 800, 450⟩ := by
  have hvh : vh ≠ 0 := Nat.pos_iff_ne_zero.mp hh
  rcases fit_cases vw vh hvh with ⟨d, hd, heq⟩ | ⟨d, hd, heq⟩ <;> rw [heq] <;> dsimp only
  · refine ⟨le_refl 0, Int.natCast_nonneg _, ?_, ?_, Or.inl rfl, eval_fit_1920_1080⟩
    · simp
    · have := center_fits WINDOW_HEIGHT d hd
      exact_mod_cast this
  · refine ⟨Int.natCast_nonneg _, le_refl 0, ?_, ?_, Or.inr rfl, eval_fit_1920_1080⟩
    · have := center_fits WINDOW_WIDTH d hd
      exact_mod_cast this
    · simp

/-- C2 witness at the 1920×1080 scenario. -/
theorem C2_witness :
    0 < 1920 ∧ 0 < 1080 ∧
    calculate_display_rect 1920 1080 ScaleMode.Fit = ⟨0, 75, 800, 450⟩ :=
  ⟨by decide, by decide,
    (C2_fit_contained_one_axis_tight 1920 1080 (by decide) (by decide)).2.2.2.2.2⟩

/-- C10: for every positive video size, both `Fill` branches clamp the
ceiling-scaled dimension to the window constant, so `Fill` always returns
exactly the full fixed-window rect `(0, 0, 800, 600)`. -/
theorem C10_fill_always_full_window (vw vh : Nat) (hw : 0 < vw) (hh : 0 < vh) :
    calculate_display_rect vw vh ScaleMode.Fill = ⟨0, 0, 800, 600⟩ := by
  have hvh : vh ≠ 0 := Nat.pos_iff_ne_zero.mp hh
  have ha : aspectRatio vw vh = .fin ((vw : ℚ) / (vh : ℚ)) :=
    aspectRatio_of_height_ne_zero vw vh hvh
  have hq0 : 0 < (vw : ℚ) / (vh : ℚ) := by
    apply div_pos
    · exact_mod_cast hw
    · exact_mod_cast hh
  simp only [calculate_display_rect, ha]
  by_cases hc : WINDOW_ASPECT_RATIO < (vw : ℚ) / (vh : ℚ)
  · have h800 : (800 : ℚ) < (WINDOW_HEIGHT : ℚ) * ((vw : ℚ) / (vh : ℚ)) := by
      rw [window_aspect_eq] at hc
      have h6 : (WINDOW_HEIGHT : ℚ) = 600 := by norm_num [WINDOW_HEIGHT]
      rw [h6]
      linarith
    have hlt : (800 : Nat) < mulCeilU32 (WINDOW_HEIGHT : ℚ) (.fin ((vw : ℚ) / (vh : ℚ))) := by
      simp only [mulCeilU32]
      refine lt_min ?_ (by norm_num [u32Max])
      rw [Nat.lt_ceil]
      exact_mod_cast h800
    rw [if_pos ((gtQ_fin _ _).mpr hc)]
    rw [if_pos (by simpa [WINDOW_WIDTH] using hlt)]
    norm_num [WINDOW_WIDTH, WINDOW_HEIGHT, safe_sub_eq, safe_div_two]
  · have hq43 : (vw : ℚ) / (vh : ℚ) ≤ 4 / 3 := by
      rw [window_aspect_eq] at hc
      exact not_lt.mp hc
    have h600 : (600 : ℚ) ≤ (WINDOW_WIDTH : ℚ) / ((vw : ℚ) / (vh : ℚ)) := by
      rw [le_div_iff₀ hq0]
      have h8 : (WINDOW_WIDTH : ℚ) = 800 := by norm_num [WINDOW_WIDTH]
      rw [h8]
      linarith
    have hle : (600 : Nat) ≤ divCeilU32 (WINDOW_WIDTH : ℚ) (.fin ((vw : ℚ) / (vh : ℚ))) := by
      simp only [divCeilU32, if_neg (ne_of_gt hq0)]
      refine le_min ?_ (by norm_num [u32Max])
      have hcl := Nat.le_ceil ((WINDOW_WIDTH : ℚ) / ((vw : ℚ) / (vh : ℚ)))
      have h2 : (600 : ℚ) ≤ (⌈(WINDOW_WIDTH : ℚ) / ((vw : ℚ) / (vh : ℚ))⌉₊ : ℚ) :=
        le_trans h600 hcl
      exact_mod_cast h2
    rw [if_neg (by rw [gtQ_fin]; exact hc)]
    have hclamp :
        (if divCeilU32 (WINDOW_WIDTH : ℚ) (.fin ((vw : ℚ) / (vh : ℚ))) > WINDOW_HEIGHT
          then WINDOW_HEIGHT
          else divCeilU32 (WINDOW_WIDTH : ℚ) (.fin ((vw : ℚ) / (vh : ℚ)))) = 600 := by
      simp only [WINDOW_HEIGHT] at hle ⊢
      split <;> omega
    rw [hclamp]
    norm_num [WINDOW_WIDTH, WINDOW_HEIGHT, safe_sub_eq, safe_div_two]

/-- C10 witness at a 1280×720 video. -/
theorem C10_witness :
    0 < 1280 ∧ 0 < 720 ∧
    calculate_display_rect 1280 720 ScaleMode.Fill = ⟨0, 0, 800, 600⟩ :=
  ⟨by decide, by decide, C10_fill_always_full_window 1280 720 (by decide) (by decide)⟩

/-- C1: the code evaluated at the claim's scenario. The spec asserts that
`Fill` for a 1920×1080 video keeps the unclamped width 1067 with a negative
centered x offset (aspect-preserving crop); the code instead clamps the
scaled width to `WINDOW_WIDTH` and returns the full window rect, stretching
the picture — contradicting the `Fill` doc comment in the source ("display
at the original aspect ratio, cropping, full-screen"). -/
theorem C1_fill_1920_1080_is_clamped_full_window :
    calculate_display_rect 1920 1080 ScaleMode.Fill = ⟨0, 0, 800, 600⟩ :=
  eval_fill_1920_1080

/-- C3 counterexample: `calculate(0, 600, Fill)` does not have zero area —
the `800/0.0 = +inf` ceiling saturates to `u32::MAX`, is clamped to the
window height, and the full 800×600 window rect is returned. -/
theorem C3_counterexample :
    ¬ ((calculate_display_rect 0 600 ScaleMode.Fill).w *
        (calculate_display_rect 0 600 ScaleMode.Fill).h = 0) := by
  rw [eval_fill_zero_width 600 (by norm_num)]
  norm_num

/-- C3 (amended): with a zero video dimension the computation is total (no
panic) and yields non-negative offsets; under `Fit` the area is always zero,
and when both dimensions are zero the area is zero under either mode; but
under `Fill` with exactly one zero dimension the result is the full
800×600 window rect, not a zero-area rect. -/
theorem C3_zero_dims (vw vh : Nat) (mode : ScaleMode) (hz : vw = 0 ∨ vh = 0) :
    0 ≤ (calculate_display_rect vw vh mode).x ∧
    0 ≤ (calculate_display_rect vw vh mode).y ∧
    (mode = ScaleMode.Fit →
      (calculate_display_rect vw vh mode).w *
        (calculate_display_rect vw vh mode).h = 0) ∧
    (vw = 0 → vh = 0 →
      (calculate_display_rect vw vh mode).w *
        (calculate_display_rect vw vh mode).h = 0) ∧
    (mode = ScaleMode.Fill → (0 < vw ∨ 0 < vh) →
      calculate_display_rect vw vh mode = ⟨0, 0, 800, 600⟩) := by
  rcases hz with hz | hz
  · subst hz
    by_cases hvh : vh = 0
    · subst hvh
      cases mode
      · rw [eval_fit_zero_zero]
        refine ⟨by norm_num, le_refl 0, fun _ => by norm_num, fun _ _ => by norm_num, ?_⟩
        intro h
        exact absurd h (by simp)
      · rw [eval_fill_zero_zero]
        refine ⟨le_refl 0, by norm_num, ?_, fun _ _ => by norm_num, ?_⟩
        · intro h
          exact absurd h (by simp)
        · intro _ h
          rcases h with h | h <;> omega
    · cases mode
      · rw [eval_fit_zero_width vh hvh]
        refine ⟨by norm_num, le_refl 0, fun _ => by norm_num, fun _ hv => absurd hv hvh, ?_⟩
        intro h
        exact absurd h (by simp)
      · rw [eval_fill_zero_width vh hvh]
        exact ⟨le_refl 0, le_refl 0, fun h => absurd h (by simp),
          fun _ hv => absurd hv hvh, fun _ _ => rfl⟩
  · by_cases hvw : vw = 0
    · subst hvw
      subst hz
      cases mode
      · rw [eval_fit_zero_zero]
        refine ⟨by norm_num, le_refl 0, fun _ => by norm_num, fun _ _ => by norm_num, ?_⟩
        intro h
        exact absurd h (by simp)
      · rw [eval_fill_zero_zero]
        refine ⟨le_refl 0, by norm_num, ?_, fun _ _ => by norm_num, ?_⟩
        · intro h
          exact absurd h (by simp)
        · intro _ h
          rcases h with h | h <;> omega
    · subst hz
      cases mode
      · rw [eval_fit_zero_height vw hvw]
        refine ⟨le_refl 0, by norm_num, fun _ => by norm_num, fun hv _ => absurd hv hvw, ?_⟩
        intro h
        exact absurd h (by simp)
      · rw [eval_fill_zero_height vw hvw]
        exact ⟨le_refl 0, le_refl 0, fun h => absurd h (by simp),
          fun hv _ => absurd hv hvw, fun _ _ => rfl⟩

/-- C3 witness: the amended statement applied at `(0, 600, Fill)`. -/
theorem C3_witness :
    ((0 : Nat) = 0 ∨ (600 : Nat) = 0) ∧
    calculate_display_rect 0 600 ScaleMode.Fill = ⟨0, 0, 800, 600⟩ :=
  ⟨Or.inl rfl,
    (C3_zero_dims 0 600 ScaleMode.Fill (Or.inl rfl)).2.2.2.2 rfl (Or.inr (by decide))⟩

/-! ## The event loop of `main` (lines 281–533 of `src/main.rs`)

The loop is embedded as a step function over an explicit state.  External
nondeterminism is supplied per tick: the queued bus messages, the queued SDL
events (each paired with the position `query_position` would report at that
moment), and the outcome of the single bounded frame pull.  Each tick emits
an ordered trace of observable actions. -/

/-- GStreamer pipeline states used by the program. -/
inductive GstState
  | Playing
  | Paused
  | Null
deriving DecidableEq

/-- Commands issued to the pipeline: `set_state` and the flushing/accurate
`Seek` event (`rate`, `FLUSH`, `ACCURATE`, absolute start `position`;
the end is `SeekType::None`/`ClockTime::NONE` and is not varied). -/
inductive PipelineCmd
  | setState (s : GstState)
  | seek (rate : ℚ) (flush accurate : Bool) (position : Nat)
deriving DecidableEq

/-- `sdl2::video::FullscreenType`. -/
inductive FullscreenState
  | FsTrue
  | FsDesktop
  | FsOff
deriving DecidableEq

/-- The SDL events the loop distinguishes: window-quit, the handled keydowns,
and anything else (the wildcard `_ => {}` arm). -/
inductive InputEvent
  | quit
  | keyQ
  | keyEscape
  | keyR
  | keyM
  | keyPageUp
  | keyPageDown
  | keyF
  | keySpace
  | keyS
  | other
deriving DecidableEq

/-- The mutable state of the main loop: `playing`, the last-negotiated video
`width`/`height` (texture size), the `frames` counter, `scale_mode`,
`playback_speed`, the `volume` element's gain, and the window's fullscreen
state. -/
structure LoopState where
  playing : Bool
  width : Nat
  height : Nat
  frames : Nat
  scale_mode : ScaleMode
  playback_speed : PlaybackSpeed
  volume : ℚ
  fullscreen : FullscreenState
deriving DecidableEq

/-- `f64::clamp(lo, hi)` on the volume model. -/
def clampQ (v lo hi : ℚ) : ℚ := if v < lo then lo else if v > hi then hi else v

/-- Result of handling one SDL event: the updated state, the pipeline
commands issued during the handler, and whether `break 'running` fired. -/
structure EventResult where
  state : LoopState
  cmds : List PipelineCmd
  brk : Bool
deriving DecidableEq

/-- One arm of the `match event` dispatch (lines 310–431 of `src/main.rs`).
`position` is what `pipeline.query_position()` returns if the `S` handler
queries it at this moment. -/
def handleEvent (s : LoopState) (ev : InputEvent) (position : Option Nat) :
    EventResult :=
  match ev with
  | .quit => ⟨s, [], true⟩
  | .keyQ => ⟨s, [], true⟩
  | .keyEscape => ⟨s, [], true⟩
  | .keyR =>
    ⟨{ s with scale_mode :=
        (match s.scale_mode with
          | ScaleMode.Fit => ScaleMode.Fill
          | ScaleMode.Fill => ScaleMode.Fit) }, [], false⟩
  | .keyM => ⟨{ s with volume := 0 }, [], false⟩
  | .keyPageUp => ⟨{ s with volume := clampQ (s.volume + 1/10) 0 1 }, [], false⟩
  | .keyPageDown => ⟨{ s with volume := clampQ (s.volume - 1/10) 0 1 }, [], false⟩
  | .keyF =>
    ⟨{ s with fullscreen :=
        (match s.fullscreen with
          | FullscreenState.FsTrue => FullscreenState.FsOff
          | FullscreenState.FsDesktop => FullscreenState.FsOff
          | FullscreenState.FsOff => FullscreenState.FsTrue) }, [], false⟩
  | .keySpace =>
    if s.playing then
      ⟨{ s with playing := false }, [PipelineCmd.setState GstState.Paused], false⟩
    else
      ⟨{ s with playing := true }, [PipelineCmd.setState GstState.Playing], false⟩
  | .keyS =>
    match position with
    | some pos =>
      ⟨{ s with playback_speed := s.playback_speed.next },
        [PipelineCmd.setState GstState.Paused,
          PipelineCmd.seek (s.playback_speed.next.get_rate) true true pos] ++
          (if s.playing then [PipelineCmd.setState GstState.Playing] else []),
        false⟩
    | none =>
      ⟨{ s with playback_speed := s.playback_speed.next }, [], false⟩
  | .other => ⟨s, [], false⟩

/-- Bus message kinds the loop distinguishes (`MessageView`):
end-of-stream, error, and everything else. -/
inductive BusMsg
  | eos
  | error
  | other
deriving DecidableEq

/-- Observable actions of one tick, in program order. -/
inductive Action
  | readBus (m : BusMsg)
  | handleInput (e : InputEvent)
  | pipelineCmd (c : PipelineCmd)
  | pullFrame (timeoutMs : Nat)
  | createTexture (w h : Nat)
  | render (r : DisplayRect)
deriving DecidableEq

/-- `for msg in bus.iter()` (lines 283–303): reads messages in order, and
`break 'running` fires at the first `Eos` or `Error` (later queued messages
are not read).  Returns the trace of reads and the break flag. -/
def drainBus : List BusMsg → List Action × Bool
  | [] => ([], false)
  | BusMsg.eos :: _ => ([Action.readBus BusMsg.eos], true)
  | BusMsg.error :: _ => ([Action.readBus BusMsg.error], true)
  | BusMsg.other :: rest =>
    (Action.readBus BusMsg.other :: (drainBus rest).1, (drainBus rest).2)

/-- A bus queue is terminal when it contains an `Eos` or `Error` message. -/
def busTerminal (msgs : List BusMsg) : Bool :=
  msgs.any fun m =>
    match m with
    | BusMsg.other => false
    | _ => true

/-- `for event in event_pump.poll_iter()` (lines 306–432): handles events in
order; `break 'running` at a quit event stops processing the rest.  Returns
the trace, the final state and the break flag. -/
def processEvents (s : LoopState) :
    List (InputEvent × Option Nat) → List Action × LoopState × Bool
  | [] => ([], s, false)
  | (ev, pos) :: rest =>
    let r := handleEvent s ev pos
    if r.brk then
      (Action.handleInput ev :: r.cmds.map Action.pipelineCmd, r.state, true)
    else
      (Action.handleInput ev ::
          (r.cmds.map Action.pipelineCmd ++ (processEvents r.state rest).1),
        (processEvents r.state rest).2.1,
        (processEvents r.state rest).2.2)

/-- An event list requests quit iff it contains a window-quit, `Q` or
`Escape` event. -/
def eventsQuit (evs : List (InputEvent × Option Nat)) : Bool :=
  evs.any fun p =>
    match p.1 with
    | InputEvent.quit => true
    | InputEvent.keyQ => true
    | InputEvent.keyEscape => true
    | _ => false

/-- The dimensions a pulled sample reports through its caps. -/
structure Frame where
  width : Nat
  height : Nat
deriving DecidableEq

/-- Outcome of `appsink.try_pull_sample(40ms)` combined with
`appsink.is_eos()`: a sample, or a timeout with/without end-of-stream. -/
inductive PullResult
  | sample (f : Frame)
  | timeoutEos
  | timeoutNoEos
deriving DecidableEq

/-- The bounded wait passed to `try_pull_sample`
(`gstreamer::ClockTime::from_mseconds(40)`). -/
def PULL_TIMEOUT_MS : Nat := 40

/-- Whether one tick ends with `break 'running` or re-enters the loop. -/
inductive TickOutcome
  | proceed
  | terminate
deriving DecidableEq

/-- The frame-pull / texture / render phase (lines 440–500): one bounded
pull; on a sample, recreate the texture when the negotiated size changed,
then (for positive dimensions) update the texture, compute the destination
rect, render and bump the frame counter; on a timeout, terminate iff the
appsink reports end-of-stream. -/
def pullPhase (s : LoopState) (pr : PullResult) :
    List Action × LoopState × TickOutcome :=
  match pr with
  | PullResult.sample f =>
    let s0 := if f.width ≠ s.width ∨ f.height ≠ s.height then
        { s with width := f.width, height := f.height } else s
    let ctr : List Action := if f.width ≠ s.width ∨ f.height ≠ s.height then
        [Action.createTexture f.width f.height] else []
    let rtr : List Action := if 0 < s0.width ∧ 0 < s0.height then
        [Action.render (calculate_display_rect s0.width s0.height s0.scale_mode)]
      else []
    let s1 := if 0 < s0.width ∧ 0 < s0.height then
        { s0 with frames := s0.frames + 1 } else s0
    (Action.pullFrame PULL_TIMEOUT_MS :: (ctr ++ rtr), s1, TickOutcome.proceed)
  | PullResult.timeoutEos =>
    ([Action.pullFrame PULL_TIMEOUT_MS], s, TickOutcome.terminate)
  | PullResult.timeoutNoEos =>
    ([Action.pullFrame PULL_TIMEOUT_MS], s, TickOutcome.proceed)

/-- The external inputs one tick consumes. -/
structure TickInput where
  busMsgs : List BusMsg
  events : List (InputEvent × Option Nat)
  pull : PullResult
deriving DecidableEq

/-- One iteration of `'running: loop` (lines 281–525): drain the bus
(terminal message breaks the loop at once), process the queued events (a
quit event breaks the loop), `continue` when paused, otherwise run the
frame-pull phase.  The wall-clock FPS block is not modelled. -/
def runTick (s : LoopState) (t : TickInput) : List Action × LoopState × TickOutcome :=
  if (drainBus t.busMsgs).2 then
    ((drainBus t.busMsgs).1, s, TickOutcome.terminate)
  else
    if (processEvents s t.events).2.2 then
      ((drainBus t.busMsgs).1 ++ (processEvents s t.events).1,
        (processEvents s t.events).2.1, TickOutcome.terminate)
    else
      if (processEvents s t.events).2.1.playing = false then
        ((drainBus t.busMsgs).1 ++ (processEvents s t.events).1,
          (processEvents s t.events).2.1, TickOutcome.proceed)
      else
        ((drainBus t.busMsgs).1 ++ (processEvents s t.events).1 ++
            (pullPhase (processEvents s t.events).2.1 t.pull).1,
          (pullPhase (processEvents s t.events).2.1 t.pull).2.1,
          (pullPhase (processEvents s t.events).2.1 t.pull).2.2)

/-- Iterated ticks, stopping when a tick breaks the loop.  Returns the
concatenated trace and whether the loop exited by `break 'running`. -/
def runLoop (s : LoopState) : List TickInput → List Action × Bool
  | [] => ([], false)
  | t :: ts =>
    match (runTick s t).2.2 with
    | TickOutcome.terminate => ((runTick s t).1, true)
    | TickOutcome.proceed =>
      ((runTick s t).1 ++ (runLoop (runTick s t).2.1 ts).1,
        (runLoop (runTick s t).2.1 ts).2)

/-- The whole program after pipeline construction: run the loop, then the
unconditional teardown `pipeline.set_state(Null)` (lines 527–530), and
`main` returns normally, i.e. the process exit code is 0. -/
def runProgram (s : LoopState) (ticks : List TickInput) : List Action × Int :=
  ((runLoop s ticks).1 ++ [Action.pipelineCmd (PipelineCmd.setState GstState.Null)], 0)

/-- A concrete loop state used to instantiate universally quantified
theorems: playing, 800×600 texture, `Fit`, `Normal` speed, full volume. -/
def sampleState : LoopState :=
  ⟨true, 800, 600, 0, ScaleMode.Fit, PlaybackSpeed.Normal, 1, FullscreenState.FsOff⟩

/-- C4: whenever the `S` handler runs and the position query succeeds, the
pipeline commands it issues are exactly, in order: a transition to `Paused`,
then a flushing accurate seek to the queried position at the new rate, then
a transition to `Playing` — the last present if and only if the transport
flag was set before the command.  In particular the resume never precedes
the seek. -/
theorem C4_speed_cycle_pause_seek_resume (s : LoopState) (pos : Nat) :
    (handleEvent s InputEvent.keyS (some pos)).cmds =
      [PipelineCmd.setState GstState.Paused,
        PipelineCmd.seek (s.playback_speed.next.get_rate) true true pos] ++
        (if s.playing then [PipelineCmd.setState GstState.Playing] else []) ∧
    (PipelineCmd.setState GstState.Playing ∈
        (handleEvent s InputEvent.keyS (some pos)).cmds ↔ s.playing = true) := by
  refine ⟨rfl, ?_⟩
  cases hsp : s.playing <;> simp [handleEvent, hsp]

/-- C5 counterexample: with the query failing (`none`), the claim says the
state — including the current `PlaybackSpeed` — is unchanged; but
`playback_speed = playback_speed.next()` runs before the query, so the
state does change. -/
theorem C5_counterexample :
    ¬ ((handleEvent sampleState InputEvent.keyS none).state = sampleState) := by
  simp [handleEvent, sampleState, PlaybackSpeed.next]

/-- C5 (amended): when the position query fails, the `S` handler issues no
seek and no state transition and does not break the loop, but the
`PlaybackSpeed` has already been advanced to its cyclic successor. -/
theorem C5_query_failure_no_commands (s : LoopState) :
    handleEvent s InputEvent.keyS none =
      ⟨{ s with playback_speed := s.playback_speed.next }, [], false⟩ := rfl

/-- C7: the `M` handler sets the volume gain to `0.0` unconditionally and
issues no pipeline command; repeating it is idempotent; and the post-mute
state retains no trace of the pre-mute volume (it is the same whatever the
prior volume was), so nothing can restore it. -/
theorem C7_mute_unconditional_idempotent (s : LoopState) (pos : Option Nat) :
    (handleEvent s InputEvent.keyM pos).state = { s with volume := 0 } ∧
    (handleEvent s InputEvent.keyM pos).cmds = [] ∧
    (handleEvent (handleEvent s InputEvent.keyM pos).state InputEvent.keyM pos).state =
      { s with volume := 0 } ∧
    (∀ v : ℚ, (handleEvent { s with volume := v } InputEvent.keyM pos).state =
      { s with volume := 0 }) :=
  ⟨rfl, rfl, rfl, fun _ => rfl⟩

/-- The clamp always lands in `[0, 1]`. -/
lemma clampQ_mem (v : ℚ) : 0 ≤ clampQ v 0 1 ∧ clampQ v 0 1 ≤ 1 := by
  unfold clampQ
  split_ifs <;> constructor <;> linarith

/-- Every event handler keeps the volume inside `[0, 1]`. -/
lemma handleEvent_volume_mem (s : LoopState) (ev : InputEvent) (pos : Option Nat)
    (h0 : 0 ≤ s.volume) (h1 : s.volume ≤ 1) :
    0 ≤ (handleEvent s ev pos).state.volume ∧
      (handleEvent s ev pos).state.volume ≤ 1 := by
  cases ev
  case quit => exact ⟨h0, h1⟩
  case keyQ => exact ⟨h0, h1⟩
  case keyEscape => exact ⟨h0, h1⟩
  case keyR => exact ⟨h0, h1⟩
  case keyM => exact ⟨le_refl 0, zero_le_one⟩
  case keyPageUp => exact clampQ_mem _
  case keyPageDown => exact clampQ_mem _
  case keyF => exact ⟨h0, h1⟩
  case keySpace =>
    constructor <;> simp only [handleEvent] <;> split <;> first | exact h0 | exact h1
  case keyS => cases pos <;> exact ⟨h0, h1⟩
  case other => exact ⟨h0, h1⟩

/-- Processing any queue of events keeps the volume inside `[0, 1]`. -/
lemma processEvents_volume_mem (evs : List (InputEvent × Option Nat))
    (s : LoopState) (h0 : 0 ≤ s.volume) (h1 : s.volume ≤ 1) :
    0 ≤ (processEvents s evs).2.1.volume ∧ (processEvents s evs).2.1.volume ≤ 1 := by
  induction evs generalizing s with
  | nil => exact ⟨h0, h1⟩
  | cons p rest ih =>
    obtain ⟨ev, pos⟩ := p
    have hb := handleEvent_volume_mem s ev pos h0 h1
    simp only [processEvents]
    split
    · exact hb
    · exact ih _ hb.1 hb.2

/-- C6: starting from any volume in `[0, 1]`, a single volume-up or
volume-down adjustment (read, add ±0.1, clamp, write back) stays in
`[0, 1]`, and so does the volume after any sequence of handled events —
in particular after `n` successive adjustments. -/
theorem C6_volume_stays_clamped (s : LoopState)
    (evs : List (InputEvent × Option Nat)) (pos : Option Nat)
    (h0 : 0 ≤ s.volume) (h1 : s.volume ≤ 1) :
    (0 ≤ (handleEvent s InputEvent.keyPageUp pos).state.volume ∧
      (handleEvent s InputEvent.keyPageUp pos).state.volume ≤ 1) ∧
    (0 ≤ (handleEvent s InputEvent.keyPageDown pos).state.volume ∧
      (handleEvent s InputEvent.keyPageDown pos).state.volume ≤ 1) ∧
    (0 ≤ (processEvents s evs).2.1.volume ∧
      (processEvents s evs).2.1.volume ≤ 1) :=
  ⟨handleEvent_volume_mem s InputEvent.keyPageUp pos h0 h1,
    handleEvent_volume_mem s InputEvent.keyPageDown pos h0 h1,
    processEvents_volume_mem evs s h0 h1⟩

/-- C6 witness: two volume-ups then a volume-down from full volume. -/
theorem C6_witness :
    0 ≤ sampleState.volume ∧ sampleState.volume ≤ 1 ∧
    0 ≤ (processEvents sampleState
        [(InputEvent.keyPageUp, none), (InputEvent.keyPageUp, none),
          (InputEvent.keyPageDown, none)]).2.1.volume ∧
    (processEvents sampleState
        [(InputEvent.keyPageUp, none), (InputEvent.keyPageUp, none),
          (InputEvent.keyPageDown, none)]).2.1.volume ≤ 1 :=
  ⟨zero_le_one, le_refl 1,
    (C6_volume_stays_clamped sampleState
      [(InputEvent.keyPageUp, none), (InputEvent.keyPageUp, none),
        (InputEvent.keyPageDown, none)] none zero_le_one (le_refl 1)).2.2.1,
    (C6_volume_stays_clamped sampleState
      [(InputEvent.keyPageUp, none), (InputEvent.keyPageUp, none),
        (InputEvent.keyPageDown, none)] none zero_le_one (le_refl 1)).2.2.2⟩

/-- Classifier: is this action a bus-message read? -/
def Action.isBusRead : Action → Bool
  | .readBus _ => true
  | _ => false

/-- Classifier: is this action a frame-pull attempt? -/
def Action.isPull : Action → Bool
  | .pullFrame _ => true
  | _ => false

/-- Classifier: is this action a texture recreation or a render? -/
def Action.isTexOrRender : Action → Bool
  | .createTexture _ _ => true
  | .render _ => true
  | _ => false

/-- The bus drain emits only bus reads. -/
lemma drainBus_only_bus (ms : List BusMsg) :
    ∀ a ∈ (drainBus ms).1, a.isBusRead = true ∧ a.isPull = false ∧
      a.isTexOrRender = false := by
  induction ms with
  | nil =>
    intro a ha
    cases ha
  | cons m rest ih =>
    cases m <;> intro a ha
    · simp only [drainBus, List.mem_singleton] at ha
      subst ha
      exact ⟨rfl, rfl, rfl⟩
    · simp only [drainBus, List.mem_singleton] at ha
      subst ha
      exact ⟨rfl, rfl, rfl⟩
    · simp only [drainBus, List.mem_cons] at ha
      rcases ha with rfl | ha
      · exact ⟨rfl, rfl, rfl⟩
      · exact ih a ha

/-- The bus-drain break flag is exactly the presence of a terminal message. -/
lemma drainBus_flag (ms : List BusMsg) : (drainBus ms).2 = busTerminal ms := by
  induction ms with
  | nil => rfl
  | cons m rest ih =>
    cases m
    · rfl
    · rfl
    · simpa [drainBus, busTerminal] using ih

/-- Event processing emits only input-handled and pipeline-command actions. -/
lemma processEvents_no_bus (evs : List (InputEvent × Option Nat)) (s : LoopState) :
    ∀ a ∈ (processEvents s evs).1, a.isBusRead = false ∧ a.isPull = false ∧
      a.isTexOrRender = false := by
  induction evs generalizing s with
  | nil => intro a ha; cases ha
  | cons p rest ih =>
    obtain ⟨ev, pos⟩ := p
    intro a ha
    simp only [processEvents] at ha
    have hcmds : ∀ b ∈ (handleEvent s ev pos).cmds.map Action.pipelineCmd,
        b.isBusRead = false ∧ b.isPull = false ∧ b.isTexOrRender = false := by
      intro b hb
      rcases List.mem_map.mp hb with ⟨c, _, rfl⟩
      exact ⟨rfl, rfl, rfl⟩
    split at ha
    · simp only [List.mem_cons] at ha
      rcases ha with rfl | ha
      · exact ⟨rfl, rfl, rfl⟩
      · exact hcmds a ha
    · simp only [List.mem_cons, List.mem_append] at ha
      rcases ha with rfl | ha | ha
      · exact ⟨rfl, rfl, rfl⟩
      · exact hcmds a ha
      · exact ih _ a ha

/-- The event-loop break flag is exactly the presence of a quit event. -/
lemma processEvents_flag (evs : List (InputEvent × Option Nat)) (s : LoopState) :
    (processEvents s evs).2.2 = eventsQuit evs := by
  induction evs generalizing s with
  | nil => rfl
  | cons p rest ih =>
    obtain ⟨ev, pos⟩ := p
    simp only [processEvents, eventsQuit, List.any_cons]
    cases ev <;>
      simp only [handleEvent] <;>
      first
        | rfl
        | (simp only [Bool.false_or]; exact ih _)
        | (cases pos <;> simp only [Bool.false_or] <;> exact ih _)
        | (split <;> simp only [Bool.false_or] <;> exact ih _)

/-- The pull phase emits no bus reads. -/
lemma pullPhase_no_bus (s : LoopState) (pr : PullResult) :
    ∀ a ∈ (pullPhase s pr).1, a.isBusRead = false := by
  cases pr with
  | sample f =>
    intro a ha
    cases a <;> try rfl
    exfalso
    simp only [pullPhase, List.mem_cons, List.mem_append] at ha
    rcases ha with ha | ha | ha
    · exact absurd ha (by simp)
    · split at ha
      · rw [List.mem_singleton] at ha
        exact absurd ha (by simp)
      · cases ha
    · split at ha
      · split at ha
        · rw [List.mem_singleton] at ha
          exact absurd ha (by simp)
        · cases ha
      · split at ha
        · rw [List.mem_singleton] at ha
          exact absurd ha (by simp)
        · cases ha
  | timeoutEos =>
    intro a ha
    simp only [pullPhase, List.mem_singleton] at ha
    subst ha
    rfl
  | timeoutNoEos =>
    intro a ha
    simp only [pullPhase, List.mem_singleton] at ha
    subst ha
    rfl

/-- Shape of a tick's trace: on a terminal bus queue, the tick stops inside
the drain; otherwise the trace is the full drain followed by non-bus
actions only. -/
lemma runTick_shape (s : LoopState) (t : TickInput) :
    (busTerminal t.busMsgs = true ∧
      (runTick s t).1 = (drainBus t.busMsgs).1 ∧
      (runTick s t).2.2 = TickOutcome.terminate) ∨
    (busTerminal t.busMsgs = false ∧
      ∃ r, (runTick s t).1 = (drainBus t.busMsgs).1 ++ r ∧
        ∀ a ∈ r, a.isBusRead = false) := by
  by_cases hB : (drainBus t.busMsgs).2 = true
  · left
    refine ⟨by rw [← drainBus_flag]; exact hB, ?_, ?_⟩ <;>
      simp only [runTick, hB, if_true]
  · right
    have hB' : (drainBus t.busMsgs).2 = false := by
      cases h : (drainBus t.busMsgs).2
      · rfl
      · exact absurd h hB
    refine ⟨by rw [← drainBus_flag]; exact hB', ?_⟩
    simp only [runTick, hB', Bool.false_eq_true, if_false]
    split
    · exact ⟨(processEvents s t.events).1, rfl,
        fun a ha => (processEvents_no_bus t.events s a ha).1⟩
    · split
      · exact ⟨(processEvents s t.events).1, rfl,
          fun a ha => (processEvents_no_bus t.events s a ha).1⟩
      · refine ⟨(processEvents s t.events).1 ++
          (pullPhase (processEvents s t.events).2.1 t.pull).1, ?_, ?_⟩
        · rw [List.append_assoc]
        · intro a ha
          rcases List.mem_append.mp ha with ha | ha
          · exact (processEvents_no_bus t.events s a ha).1
          · exact pullPhase_no_bus _ _ a ha

/-- C8: on every tick the bus reads form a prefix of the trace (every bus
read precedes every other action, so bus draining runs before input
handling); when a queued message is end-of-stream or an error the tick
terminates the loop at once and performs nothing but bus reads (input
handling, frame pulling and rendering are skipped); and the program run
always appends the transition to `Null` after the loop's trace and exits
with code 0. -/
theorem C8_bus_first_terminal_exits_cleanly (s : LoopState) (t : TickInput) :
    (∃ b r, (runTick s t).1 = b ++ r ∧
      (∀ a ∈ b, a.isBusRead = true) ∧ (∀ a ∈ r, a.isBusRead = false)) ∧
    (busTerminal t.busMsgs = true →
      (runTick s t).2.2 = TickOutcome.terminate ∧
      ∀ a ∈ (runTick s t).1, a.isBusRead = true) ∧
    (∀ ticks : List TickInput, (runProgram s ticks).2 = 0 ∧
      ∃ pre, (runProgram s ticks).1 =
        pre ++ [Action.pipelineCmd (PipelineCmd.setState GstState.Null)]) := by
  rcases runTick_shape s t with ⟨_, htr, hoc⟩ | ⟨hterm, r, htr, hr⟩
  · refine ⟨⟨(drainBus t.busMsgs).1, [], by simp [htr],
      fun a ha => (drainBus_only_bus t.busMsgs a ha).1,
      fun a ha => absurd ha (List.not_mem_nil a)⟩, ?_, ?_⟩
    · intro _
      refine ⟨hoc, fun a ha => ?_⟩
      rw [htr] at ha
      exact (drainBus_only_bus t.busMsgs a ha).1
    · intro ticks
      exact ⟨rfl, ⟨(runLoop s ticks).1, rfl⟩⟩
  · refine ⟨⟨(drainBus t.busMsgs).1, r, htr,
      fun a ha => (drainBus_only_bus t.busMsgs a ha).1, hr⟩, ?_, ?_⟩
    · intro h
      rw [hterm] at h
      exact Bool.noConfusion h
    · intro ticks
      exact ⟨rfl, ⟨(runLoop s ticks).1, rfl⟩⟩

/-- C8 witness: a tick whose bus queue delivers an error terminates at once. -/
theorem C8_witness :
    busTerminal [BusMsg.error] = true ∧
    ((runTick sampleState ⟨[BusMsg.error], [], PullResult.timeoutNoEos⟩).2.2 =
        TickOutcome.terminate ∧
      ∀ a ∈ (runTick sampleState ⟨[BusMsg.error], [], PullResult.timeoutNoEos⟩).1,
        a.isBusRead = true) :=
  ⟨rfl, (C8_bus_first_terminal_exits_cleanly sampleState
    ⟨[BusMsg.error], [], PullResult.timeoutNoEos⟩).2.1 rfl⟩

/-- The pull-phase trace and outcome on a sample with positive dimensions:
one bounded pull, the texture recreation exactly when the negotiated size
changed, then the render at the rect computed from the frame size and the
current scale mode. -/
lemma pullPhase_sample_eval (sp : LoopState) (f : Frame)
    (hw : 0 < f.width) (hh : 0 < f.height) :
    (pullPhase sp (PullResult.sample f)).1 =
      Action.pullFrame PULL_TIMEOUT_MS ::
        ((if f.width ≠ sp.width ∨ f.height ≠ sp.height then
            [Action.createTexture f.width f.height] else []) ++
          [Action.render (calculate_display_rect f.width f.height sp.scale_mode)]) ∧
    (pullPhase sp (PullResult.sample f)).2.2 = TickOutcome.proceed := by
  by_cases hdim : f.width ≠ sp.width ∨ f.height ≠ sp.height
  · constructor <;> simp [pullPhase, hdim, hw, hh]
  · push_neg at hdim
    obtain ⟨hfw, hfh⟩ := hdim
    constructor <;>
      simp [pullPhase, hfw, hfh, hfw ▸ hw, hfh ▸ hh]

set_option maxHeartbeats 1600000 in
/-- C9: on a tick that reaches the pull (no terminal bus message, no quit
event) with the transport playing after input dispatch, exactly one frame
pull is attempted, with the bounded 40 ms wait; a pulled frame with positive
dimensions leads to a render (preceded by a texture recreation exactly when
the negotiated size changed) and the loop proceeds; a timeout with
end-of-stream terminates the loop without rendering; a timeout without
end-of-stream renders nothing and proceeds. -/
theorem C9_playing_tick_pull_outcomes (s : LoopState) (t : TickInput)
    (hbus : busTerminal t.busMsgs = false)
    (hquit : eventsQuit t.events = false)
    (hplay : (processEvents s t.events).2.1.playing = true) :
    (runTick s t).1.filter Action.isPull = [Action.pullFrame 40] ∧
    (∀ f, t.pull = PullResult.sample f → 0 < f.width → 0 < f.height →
      (runTick s t).2.2 = TickOutcome.proceed ∧
      (runTick s t).1.filter Action.isTexOrRender =
        (if f.width ≠ (processEvents s t.events).2.1.width ∨
            f.height ≠ (processEvents s t.events).2.1.height then
          [Action.createTexture f.width f.height] else []) ++
          [Action.render (calculate_display_rect f.width f.height
            (processEvents s t.events).2.1.scale_mode)]) ∧
    (t.pull = PullResult.timeoutEos →
      (runTick s t).2.2 = TickOutcome.terminate ∧
      (runTick s t).1.filter Action.isTexOrRender = []) ∧
    (t.pull = PullResult.timeoutNoEos →
      (runTick s t).2.2 = TickOutcome.proceed ∧
      (runTick s t).1.filter Action.isTexOrRender = []) := by
  have hB : (drainBus t.busMsgs).2 = false := by
    rw [drainBus_flag]
    exact hbus
  have hQ : (processEvents s t.events).2.2 = false := by
    rw [processEvents_flag]
    exact hquit
  have htr : (runTick s t).1 =
      (drainBus t.busMsgs).1 ++ (processEvents s t.events).1 ++
        (pullPhase (processEvents s t.events).2.1 t.pull).1 := by
    simp [runTick, hB, hQ, hplay]
  have hoc : (runTick s t).2.2 =
      (pullPhase (processEvents s t.events).2.1 t.pull).2.2 := by
    simp [runTick, hB, hQ, hplay]
  have hfb : ∀ p : Action → Bool, (∀ a, a.isBusRead = true → p a = false) →
      (drainBus t.busMsgs).1.filter p = [] := by
    intro p hp
    rw [List.filter_eq_nil_iff]
    intro a ha
    simp [hp a (drainBus_only_bus t.busMsgs a ha).1]
  have hfe : ∀ p : Action → Bool,
      (∀ a, a ∈ (processEvents s t.events).1 → p a = false) →
      (processEvents s t.events).1.filter p = [] := by
    intro p hp
    rw [List.filter_eq_nil_iff]
    intro a ha
    simp [hp a ha]
  have hbtrPull : (drainBus t.busMsgs).1.filter Action.isPull = [] :=
    hfb _ (fun a hba => by cases a <;> simp_all [Action.isBusRead, Action.isPull])
  have hbtrTex : (drainBus t.busMsgs).1.filter Action.isTexOrRender = [] :=
    hfb _ (fun a hba => by cases a <;> simp_all [Action.isBusRead, Action.isTexOrRender])
  have hetrPull : (processEvents s t.events).1.filter Action.isPull = [] :=
    hfe _ (fun a ha => (processEvents_no_bus t.events s a ha).2.1)
  have hetrTex : (processEvents s t.events).1.filter Action.isTexOrRender = [] :=
    hfe _ (fun a ha => (processEvents_no_bus t.events s a ha).2.2)
  refine ⟨?_, ?_, ?_, ?_⟩
  · rw [htr, List.filter_append, List.filter_append, hbtrPull, hetrPull]
    cases hpull : t.pull with
    | sample f =>
      simp only [pullPhase]
      split <;> split <;> simp [Action.isPull, PULL_TIMEOUT_MS]
    | timeoutEos => simp [pullPhase, Action.isPull, PULL_TIMEOUT_MS]
    | timeoutNoEos => simp [pullPhase, Action.isPull, PULL_TIMEOUT_MS]
  · intro f hf hwpos hhpos
    obtain ⟨hptr, hpoc⟩ :=
      pullPhase_sample_eval (processEvents s t.events).2.1 f hwpos hhpos
    refine ⟨by rw [hoc, hf, hpoc], ?_⟩
    rw [htr, List.filter_append, List.filter_append, hbtrTex, hetrTex, hf, hptr]
    split <;> simp [Action.isTexOrRender]
  · intro hf
    refine ⟨by rw [hoc, hf]; rfl, ?_⟩
    rw [htr, List.filter_append, List.filter_append, hbtrTex, hetrTex, hf]
    simp [pullPhase, Action.isTexOrRender]
  · intro hf
    refine ⟨by rw [hoc, hf]; rfl, ?_⟩
    rw [htr, List.filter_append, List.filter_append, hbtrTex, hetrTex, hf]
    simp [pullPhase, Action.isTexOrRender]

/-- C9 witness: an empty bus and event queue, playing, with a 320×240 sample
arriving — exactly one 40 ms pull is attempted. -/
theorem C9_witness :
    busTerminal [] = false ∧ eventsQuit [] = false ∧
    (processEvents sampleState []).2.1.playing = true ∧
    (runTick sampleState ⟨[], [], PullResult.sample ⟨320, 240⟩⟩).1.filter
      Action.isPull = [Action.pullFrame 40] :=
  ⟨rfl, rfl, rfl,
    (C9_playing_tick_pull_outcomes sampleState
      ⟨[], [], PullResult.sample ⟨320, 240⟩⟩ rfl rfl rfl).1⟩

end GstSdl2
